import Mathlib

/-
Verification development for `deco.py`, a small library of function-wrapping
combinators: `disable`, `decorator`, `countcalls`, `memo`, `n_ary` and
`trace`, plus a decorated Fibonacci demonstration function `fib`.

The Python code is shallowly embedded:
  * Python dicts (the function attribute `__dict__` bags and the memo cache)
    become ordered association lists with first-key lookup (`alistGet`) and
    replace-or-append update (`alistSet`), matching CPython dict semantics
    for the keys used here.
  * Python function objects become `PyFun`: a name, an optional docstring and
    a reference (`dictRef`) into a heap of attribute bags; the assignment
    `wrapper.__dict__ = f.__dict__` is aliasing, i.e. the wrapper keeps `f`'s
    `dictRef`, while `__name__` and `__doc__` are slots of the function object
    itself and are NOT carried by `__dict__`.
  * Exceptions become `Except String`; statements after a raising call do not
    execute, which is modelled by matching on the `Except` value.
  * Machine-level details (printing to stdout) are irrelevant to the claims
    and are not modelled.
-/

set_option autoImplicit false

/-! ## Ordered association lists: CPython dict `get` / `d[k] = v` -/

/-- First-match lookup in an ordered association list; models `dict.get(k, None)`. -/
def alistGet {κ ν : Type} [BEq κ] (l : List (κ × ν)) (k : κ) : Option ν :=
  match l with
  | [] => none
  | p :: t => if p.1 == k then some p.2 else alistGet t k

/-- Replace-in-place-or-append update; models `d[k] = v` on a CPython dict
(an existing key keeps its position, a new key is appended). -/
def alistSet {κ ν : Type} [BEq κ] (l : List (κ × ν)) (k : κ) (v : ν) : List (κ × ν) :=
  match l with
  | [] => [(k, v)]
  | p :: t => if p.1 == k then (k, v) :: t else p :: alistSet t k v

theorem alistGet_set_same {κ ν : Type} [BEq κ] [LawfulBEq κ]
    (l : List (κ × ν)) (k : κ) (v : ν) :
    alistGet (alistSet l k v) k = some v := by
  induction l with
  | nil => simp [alistGet, alistSet]
  | cons p t ih =>
    by_cases hp : p.1 == k
    · simp [alistSet, hp, alistGet]
    · simp [alistSet, hp, alistGet, ih]

theorem alistGet_set_ne {κ ν : Type} [BEq κ] [LawfulBEq κ]
    (l : List (κ × ν)) (k1 : κ) (v : ν) (k2 : κ) (hne : k1 ≠ k2) :
    alistGet (alistSet l k1 v) k2 = alistGet l k2 := by
  induction l with
  | nil =>
    have hb : (k1 == k2) = false := by
      simp [hne]
    simp [alistGet, alistSet, hb]
  | cons p t ih =>
    by_cases hp : p.1 == k1
    · have hpk : p.1 = k1 := eq_of_beq hp
      have hb : (k1 == k2) = false := by
        simp [hne]
      have hp2 : (p.1 == k2) = false := by
        simp [hpk, hne]
      simp [alistSet, hp, alistGet, hb, hp2]
    · simp [alistSet, hp, alistGet, ih]

/-! ## Python truthiness for `cache.get(key, None)` results

In `memo_wrap`, `val` is either `None` (key absent) or an `int` result;
`if not val:` is true when `val` is `None` or `0`. -/

/-- Python falsiness of `cache.get(key, None)` when cached values are ints:
`not None` and `not 0` are true, `not n` is false for nonzero `n`. -/
def pyFalsyOptInt (o : Option Int) : Bool :=
  match o with
  | none => true
  | some v => v == 0

/-! ## `memo` at call time (deco.py lines 42-50)

```
def memo_wrap(*args, **kwargs):
    key = args + tuple(kwargs.values())
    val = memo_wrap.cache.get(key, None)
    if not val:
        result = f(*args, **kwargs)
        memo_wrap.cache[key] = result
        return result
    return val
```
The wrapped `f` is modelled as a pure `List Int → List (String × Int) → Int`
(positional argument tuple and ordered keyword arguments); `fcount` counts
the invocations of `f` (the "inner call counter" used to observe whether the
cache short-circuited). -/

structure MemoState where
  cache : List (List Int × Int)
  fcount : Nat
deriving DecidableEq, Repr

/-- Cache key of `memo_wrap`: `args + tuple(kwargs.values())` — positional
values followed by keyword-argument values in call order, names discarded. -/
def memoKey (args : List Int) (kwargs : List (String × Int)) : List Int :=
  args ++ kwargs.map Prod.snd

/-- One call of `memo_wrap`: look the key up with `dict.get(key, None)`,
recompute on `if not val` (truthiness!), otherwise return the cached value. -/
def memoCall (f : List Int → List (String × Int) → Int)
    (args : List Int) (kwargs : List (String × Int)) (s : MemoState) :
    Int × MemoState :=
  let key := memoKey args kwargs
  let val := alistGet s.cache key
  if pyFalsyOptInt val then
    let result := f args kwargs
    (result, ⟨alistSet s.cache key result, s.fcount + 1⟩)
  else
    (val.getD 0, s)

/-- A wrapped function whose legitimate result is the falsy value `0`. -/
def zeroFn : List Int → List (String × Int) → Int := fun _ _ => 0

/-- A wrapped function whose result is the truthy value `7`. -/
def sevenFn : List Int → List (String × Int) → Int := fun _ _ => 7

/-! ## `countcalls` at call time (deco.py lines 29-31)

```
def countcalls_wrap(*args, **kwargs):
    countcalls_wrap.calls = getattr(countcalls_wrap, "calls", 0) + 1
    return f(*args, **kwargs)
```
The `calls` attribute is `Option Nat`: `none` models the attribute being
absent from the shared bag (reading it raises `AttributeError`); `getattr`
with default `0` is `Option.getD`. `f` may raise, modelled by `Except`. -/

/-- One call of `countcalls_wrap`: set `calls` to `getattr(..., 0) + 1`
(this assignment completes before `f` runs), then return `f`'s outcome
unchanged, a raised error included. -/
def countcallsCall (f : List Int → List (String × Int) → Except String Int)
    (args : List Int) (kwargs : List (String × Int)) (calls : Option Nat) :
    Except String Int × Option Nat :=
  (f args kwargs, some (calls.getD 0 + 1))

/-- A caller-side sequence of calls through `countcalls_wrap`, threading the
`calls` attribute and recording each call's outcome (errors are caught by the
caller and the sequence continues). -/
def runCalls (f : List Int → List (String × Int) → Except String Int) :
    List (List Int × List (String × Int)) → Option Nat →
    Option Nat × List (Except String Int)
  | [], calls => (calls, [])
  | inp :: rest, calls =>
    let step := countcallsCall f inp.1 inp.2 calls
    let restRun := runCalls f rest step.2
    (restRun.1, step.1 :: restRun.2)

/-! ## `trace` at call time (deco.py lines 96-104)

```
def trace_wrap2(*args, **kwargs):
    ... print enter line ...
    trace_wrap2.depth += 1
    result = f(*args, **kwargs)
    trace_wrap2.depth -= 1
    ... print exit line ...
    return result
```
There is no `try/finally`: when `f` raises, the statements after the call —
in particular the decrement — do not execute and the exception propagates. -/

/-- One call of `trace_wrap2` (printing omitted): increment `depth`, run `f`;
on success decrement `depth` and return the result, on an exception propagate
it with `depth` left incremented (the decrement line is never reached). -/
def trace_wrap2Call (f : List Int → Except String Int)
    (args : List Int) (depth : Nat) : Except String Int × Nat :=
  let d1 := depth + 1
  match f args with
  | Except.error e => (Except.error e, d1)
  | Except.ok r => (Except.ok r, d1 - 1)

/-- A wrapped function that raises on every call. -/
def raiseFn : List Int → Except String Int := fun _ => Except.error "boom"

/-- A wrapped function that returns 1 on every call. -/
def okOneFn : List Int → Except String Int := fun _ => Except.ok 1

/-! ## `n_ary` at call time (deco.py lines 62-69)

```
def n_ary_wrap(*args):
    if len(args) == 1:
        return args[0]
    elif len(args) == 2:
        return f(args[0], args[1])
    return f(args[0], n_ary_wrap(*args[1:]))
```
Zero arguments fall through to `args[0]`, an `IndexError`, modelled by
`none`. -/

/-- One call of `n_ary_wrap` on the argument tuple. -/
def n_ary_wrap {α : Type} (f : α → α → α) : List α → Option α
  | [] => none
  | [x] => some x
  | [x, y] => some (f x y)
  | x :: y :: z :: rest => (n_ary_wrap f (y :: z :: rest)).map (fun v => f x v)

theorem n_ary_wrap_cons {α : Type} (f : α → α → α) (x : α) (l : List α)
    (hl : l ≠ []) :
    n_ary_wrap f (x :: l) = (n_ary_wrap f l).map (fun v => f x v) := by
  match l with
  | [] => exact absurd rfl hl
  | [y] => rfl
  | y :: z :: t => rfl

theorem n_ary_wrap_foldr {α : Type} (f : α → α → α) (xs : List α) (x : α) :
    n_ary_wrap f (xs ++ [x]) = some (xs.foldr f x) := by
  induction xs with
  | nil => rfl
  | cons a t ih =>
    rw [List.cons_append, n_ary_wrap_cons f a (t ++ [x]) (by simp), ih]
    rfl

/-! ## Function objects, attribute bags and construction-time behaviour

Each combinator, applied to a function object, builds a fresh wrapper
function object (with the wrapper's own `__name__` and a `None` docstring,
since none of the nested wrapper functions has a docstring) and then aliases
the wrapped function's attribute dict:

  line 33: `countcalls_wrap.__dict__ = f.__dict__`
  line 52-53: `memo_wrap.__dict__ = f.__dict__`; `memo_wrap.cache = {}`
  line 71: `n_ary_wrap.__dict__ = f.__dict__`
  line 105-106: `trace_wrap2.__dict__ = f.__dict__`; `trace_wrap2.depth = 0`

Assigning `__dict__` shares the very dict object (same identity); it does not
copy `__name__` or `__doc__`, which live on the function object itself. -/

/-- Values stored in a function attribute bag: integers (`calls`, `depth`)
and memo caches. -/
inductive AttrVal where
  | intVal (n : Int)
  | cacheVal (entries : List (List Int × Int))
deriving DecidableEq, Repr

/-- A function attribute dict (`__dict__`). -/
abbrev Bag : Type := List (String × AttrVal)

/-- The store of attribute dicts; a `dictRef` is an index into it. -/
abbrev Heap : Type := Nat → Bag

/-- A Python function object: `__name__`, `__doc__` and the identity of its
`__dict__`. -/
structure PyFun where
  name : String
  doc : Option String
  dictRef : Nat
deriving DecidableEq, Repr

/-- Attribute read `g.attr` through the function's `__dict__`; `none` models
`AttributeError`. -/
def attrGet (h : Heap) (g : PyFun) (k : String) : Option AttrVal :=
  alistGet (h g.dictRef) k

/-- Attribute write into the bag at reference `r`. -/
def heapSet (h : Heap) (r : Nat) (k : String) (v : AttrVal) : Heap :=
  fun i => if i = r then alistSet (h r) k v else h i

/-- The four stackable combinators of deco.py (`trace` after being configured
with its indent token). -/
inductive Comb where
  | countcalls
  | memo
  | n_ary
  | traceTok
deriving DecidableEq, Repr

/-- The `__name__` of the wrapper function each combinator returns. -/
def combWrapName : Comb → String
  | Comb.countcalls => "countcalls_wrap"
  | Comb.memo => "memo_wrap"
  | Comb.n_ary => "n_ary_wrap"
  | Comb.traceTok => "trace_wrap2"

/-- Construction-time effect of applying one combinator to a function object:
the wrapper keeps its own name, has no docstring, aliases the wrapped
function's `__dict__`, and `memo` / `trace` initialise their `cache` /
`depth` attribute inside that shared bag. -/
def applyComb (c : Comb) (s : PyFun × Heap) : PyFun × Heap :=
  match c with
  | Comb.countcalls => (⟨"countcalls_wrap", none, s.1.dictRef⟩, s.2)
  | Comb.memo =>
    (⟨"memo_wrap", none, s.1.dictRef⟩,
      heapSet s.2 s.1.dictRef "cache" (AttrVal.cacheVal []))
  | Comb.n_ary => (⟨"n_ary_wrap", none, s.1.dictRef⟩, s.2)
  | Comb.traceTok =>
    (⟨"trace_wrap2", none, s.1.dictRef⟩,
      heapSet s.2 s.1.dictRef "depth" (AttrVal.intVal 0))

/-- Apply a chain of combinators, innermost first. -/
def applyChain : List Comb → PyFun × Heap → PyFun × Heap
  | [], s => s
  | c :: cs, s => applyChain cs (applyComb c s)

/-- A heap with every attribute dict empty. -/
def emptyHeap : Heap := fun _ => []

/-- A fresh undecorated function object named `foo` with a docstring. -/
def fooPy : PyFun := ⟨"foo", some "adds two numbers", 0⟩

/-- A fresh undecorated function object with no attributes set. -/
def freshFn : PyFun := ⟨"f", none, 0⟩

theorem applyComb_dictRef (c : Comb) (s : PyFun × Heap) :
    (applyComb c s).1.dictRef = s.1.dictRef := by
  cases c <;> rfl

theorem applyChain_dictRef (chain : List Comb) (s : PyFun × Heap) :
    (applyChain chain s).1.dictRef = s.1.dictRef := by
  induction chain generalizing s with
  | nil => rfl
  | cons c cs ih =>
    show (applyChain cs (applyComb c s)).1.dictRef = s.1.dictRef
    rw [ih (applyComb c s), applyComb_dictRef]

theorem applyChain_append (cs : List Comb) (c : Comb) (s : PyFun × Heap) :
    applyChain (cs ++ [c]) s = applyComb c (applyChain cs s) := by
  induction cs generalizing s with
  | nil => rfl
  | cons d ds ih =>
    rw [List.cons_append]
    show applyChain (ds ++ [c]) (applyComb d s) = _
    exact ih (applyComb d s)

/-! ## `disable` and `decorator` (deco.py lines 4-24)

```
def disable(f):
    def disable_wrap(*args, **kwargs):
        f(*args, **kwargs)
    return disable_wrap

def decorator(f):
    def decorator_wrap(*args, **kwargs):
        f(*args, **kwargs)
    decorator_wrap.__doc__ = f.__doc__
    return decorator_wrap
```
Both wrapper bodies call `f` and fall off the end, so the wrapper returns
`None` whatever `f` returned; `f` is modelled as a state transformer so the
call itself (and its effects) remain visible. `decorator` copies `__doc__`
only; neither touches `__name__` nor `__dict__`. -/

/-- One call of `disable_wrap`: run `f` for its effects, return `None`. -/
def disable_wrapCall {σ : Type} (f : List Int → List (String × Int) → σ → Int × σ)
    (args : List Int) (kwargs : List (String × Int)) (s : σ) : Option Int × σ :=
  (none, (f args kwargs s).2)

/-- One call of `decorator_wrap`: run `f` for its effects, return `None`. -/
def decorator_wrapCall {σ : Type} (f : List Int → List (String × Int) → σ → Int × σ)
    (args : List Int) (kwargs : List (String × Int)) (s : σ) : Option Int × σ :=
  (none, (f args kwargs s).2)

/-- Construction-time effect of `decorator`: the wrapper keeps its own name
and a fresh attribute dict, and inherits only `f.__doc__`. -/
def decoratorMeta (f : PyFun) (freshRef : Nat) : PyFun :=
  ⟨"decorator_wrap", f.doc, freshRef⟩

/-! ## The decorated Fibonacci function (deco.py lines 125-130)

```
@trace("####")
@memo
@countcalls
def fib(n):
    """Some doc"""
    return 1 if n <= 1 else fib(n-1) + fib(n-2)
```
The module-level name `fib` is the outermost wrapper, so the recursive calls
in the body re-enter the whole stack. All three wrappers share one attribute
bag holding `cache`, `calls` and `depth`; here they are the fields of
`FibSt`. Recursion is driven by a fuel parameter (`none` = out of fuel,
which never happens for the inputs considered). -/

structure FibSt where
  cache : List (List Int × Int)
  calls : Nat
  depth : Nat
deriving DecidableEq, Repr

/-- One call of the fully decorated `fib` (trace over memo over countcalls),
the recursion re-entering the full stack, exactly as in deco.py. -/
def fibTraced : Nat → Int → FibSt → Option (Int × FibSt)
  | 0, _, _ => none
  | fuel + 1, n, s =>
    -- trace_wrap2: print enter line, depth += 1
    let s1 : FibSt := { s with depth := s.depth + 1 }
    -- memo_wrap: key = (n,); val = cache.get(key, None)
    let key : List Int := [n]
    let val : Option Int := alistGet s1.cache key
    if pyFalsyOptInt val then
      -- miss (or cached falsy value): countcalls_wrap runs: calls += 1
      let s2 : FibSt := { s1 with calls := s1.calls + 1 }
      -- raw fib body: 1 if n <= 1 else fib(n-1) + fib(n-2)
      let body : Option (Int × FibSt) :=
        if n ≤ 1 then some (1, s2)
        else
          match fibTraced fuel (n - 1) s2 with
          | none => none
          | some (a, sa) =>
            match fibTraced fuel (n - 2) sa with
            | none => none
            | some (b, sb) => some (a + b, sb)
      match body with
      | none => none
      | some (r, s3) =>
        -- memo_wrap stores, then trace_wrap2: depth -= 1, print exit line
        some (r, { s3 with cache := alistSet s3.cache key r,
                           depth := s3.depth - 1 })
    else
      -- cache hit: memo_wrap returns val, trace_wrap2: depth -= 1
      some (val.getD 0, { s1 with depth := s1.depth - 1 })

/-- The same function without the trace layer (memo over countcalls), the
recursion re-entering through the memo wrapper. -/
def fibUntraced : Nat → Int → FibSt → Option (Int × FibSt)
  | 0, _, _ => none
  | fuel + 1, n, s =>
    let key : List Int := [n]
    let val : Option Int := alistGet s.cache key
    if pyFalsyOptInt val then
      let s2 : FibSt := { s with calls := s.calls + 1 }
      let body : Option (Int × FibSt) :=
        if n ≤ 1 then some (1, s2)
        else
          match fibUntraced fuel (n - 1) s2 with
          | none => none
          | some (a, sa) =>
            match fibUntraced fuel (n - 2) sa with
            | none => none
            | some (b, sb) => some (a + b, sb)
      match body with
      | none => none
      | some (r, s3) => some (r, { s3 with cache := alistSet s3.cache key r })
    else
      some (val.getD 0, s)

/-! ## Claim theorems -/

/-- Claim C1 (code bug evaluated on the failing input): `memo` does NOT
distinguish "not cached" from "cached but falsy" by key presence. For a
wrapped function whose result is the falsy value `0`, the first call
computes and caches `0` (`f` invoked once, key present with value `0`),
yet the second call with the same arguments invokes `f` again (`fcount`
reaches `2`), because `if not val` treats the cached `0` as a miss. -/
theorem memo_recomputes_cached_falsy :
    (memoCall zeroFn [5] [] ⟨[], 0⟩).2.fcount = 1 ∧
    alistGet (memoCall zeroFn [5] [] ⟨[], 0⟩).2.cache (memoKey [5] []) = some 0 ∧
    (memoCall zeroFn [5] [] (memoCall zeroFn [5] [] ⟨[], 0⟩).2).2.fcount = 2 :=
  ⟨rfl, rfl, rfl⟩

/-- Claim C2 (code bug evaluated on the failing input): when the function
wrapped by `trace` raises, `trace_wrap2` does NOT decrement its depth
counter back — there is no scoped release, so a call that starts at depth
`0` and raises leaves the counter at `1`, while a successful call restores
it to `0`. -/
theorem trace_depth_skewed_on_error :
    (trace_wrap2Call raiseFn [3] 0).1 = Except.error "boom" ∧
    (trace_wrap2Call raiseFn [3] 0).2 = 1 ∧
    (trace_wrap2Call okOneFn [3] 0).2 = 0 :=
  ⟨rfl, rfl, rfl⟩

/-- Claim C3 (counterexample): wrapping a function named `foo` carrying a
docstring with `countcalls` yields a wrapper whose `__name__` and `__doc__`
are NOT those of `foo` — assigning `__dict__` does not copy the name or the
docstring. -/
theorem chain_metadata_counterexample :
    ¬ ((applyChain [Comb.countcalls] (fooPy, emptyHeap)).1.name = fooPy.name ∧
       (applyChain [Comb.countcalls] (fooPy, emptyHeap)).1.doc = fooPy.doc) := by
  decide

/-- Claim C3 (amended): for every chain of combinators ending with
combinator `c` (the outermost), the resulting wrapper's `__name__` is the
wrapper function's own name (`countcalls_wrap`, `memo_wrap`, `n_ary_wrap`
or `trace_wrap2`) and its `__doc__` is `None`; the wrapped function's name
and documentation are not propagated. -/
theorem chain_metadata_amended (cs : List Comb) (c : Comb) (f : PyFun) (h : Heap) :
    (applyChain (cs ++ [c]) (f, h)).1.name = combWrapName c ∧
    (applyChain (cs ++ [c]) (f, h)).1.doc = none := by
  rw [applyChain_append]
  cases c <;> exact ⟨rfl, rfl⟩

/-- Claim C4: every stack of the four combinators around a function `f`
shares one and the same attribute bag: the outermost wrapper holds exactly
`f`'s `dictRef`; reading any attribute through the outermost wrapper reads
`f`'s bag; writing `cache` through the outermost wrapper is visible when
reading through `f`; and such a write leaves the distinct attribute `calls`
in the same bag untouched. -/
theorem chain_shared_state_bag (chain : List Comb) (f : PyFun) (h : Heap) :
    ((applyChain chain (f, h)).1.dictRef = f.dictRef) ∧
    (∀ k : String,
      attrGet (applyChain chain (f, h)).2 (applyChain chain (f, h)).1 k
        = attrGet (applyChain chain (f, h)).2 f k) ∧
    (∀ v : AttrVal,
      attrGet (heapSet (applyChain chain (f, h)).2
          (applyChain chain (f, h)).1.dictRef "cache" v) f "cache" = some v) ∧
    (∀ v : AttrVal,
      attrGet (heapSet (applyChain chain (f, h)).2
          (applyChain chain (f, h)).1.dictRef "cache" v) f "calls"
        = attrGet (applyChain chain (f, h)).2 f "calls") := by
  have hd : (applyChain chain (f, h)).1.dictRef = f.dictRef :=
    applyChain_dictRef chain (f, h)
  refine ⟨hd, ?_, ?_, ?_⟩
  · intro k
    simp [attrGet, hd]
  · intro v
    simp [attrGet, heapSet, hd, alistGet_set_same]
  · intro v
    have hcc : ("cache" : String) ≠ "calls" := by decide
    simp only [attrGet, heapSet, hd, if_pos rfl]
    exact alistGet_set_ne _ _ _ _ hcc

/-- Claim C5 (counterexample): immediately after `g = countcalls(f)` for a
fresh `f`, the attribute `g.calls` is absent (reading it raises
`AttributeError`), not `0`. -/
theorem countcalls_calls_absent_counterexample :
    attrGet (applyComb Comb.countcalls (freshFn, emptyHeap)).2
      (applyComb Comb.countcalls (freshFn, emptyHeap)).1 "calls" = none :=
  rfl

/-- Claim C5 (amended): `countcalls` sets no initial counter at construction
time — `g.calls` reads exactly what `f`'s attribute bag already held (absent
for a fresh `f`, hence an `AttributeError`); the attribute first appears at
the first call, with value `1`. -/
theorem countcalls_calls_amended (f : PyFun) (h : Heap)
    (g : List Int → List (String × Int) → Except String Int)
    (args : List Int) (kwargs : List (String × Int)) :
    attrGet (applyComb Comb.countcalls (f, h)).2
      (applyComb Comb.countcalls (f, h)).1 "calls" = attrGet h f "calls" ∧
    (countcallsCall g args kwargs none).2 = some 1 :=
  ⟨rfl, rfl⟩

theorem runCalls_counter (f : List Int → List (String × Int) → Except String Int)
    (inputs : List (List Int × List (String × Int))) (c0 : Nat) :
    (runCalls f inputs (some c0)).1 = some (c0 + inputs.length) := by
  induction inputs generalizing c0 with
  | nil => simp [runCalls]
  | cons inp rest ih =>
    simp only [runCalls, countcallsCall, Option.getD_some, List.length_cons]
    rw [ih (c0 + 1)]
    congr 1
    omega

theorem runCalls_results (f : List Int → List (String × Int) → Except String Int)
    (inputs : List (List Int × List (String × Int))) (c : Option Nat) :
    (runCalls f inputs c).2 = inputs.map (fun p => f p.1 p.2) := by
  induction inputs generalizing c with
  | nil => simp [runCalls]
  | cons inp rest ih => simp [runCalls, countcallsCall, ih]

/-- Claim C6: for every wrapped function and every nonempty sequence of
calls through `countcalls_wrap` starting from a fresh (absent) counter, the
`calls` attribute afterwards equals the number of calls made — the increment
happens unconditionally before delegating, so erroring calls are counted
too — and each call's outcome (value or error) is exactly that of the
wrapped function. -/
theorem countcalls_counts_sequence
    (f : List Int → List (String × Int) → Except String Int)
    (inp : List Int × List (String × Int))
    (rest : List (List Int × List (String × Int))) :
    (runCalls f (inp :: rest) none).1 = some (rest.length + 1) ∧
    (runCalls f (inp :: rest) none).2
      = (inp :: rest).map (fun p => f p.1 p.2) := by
  refine ⟨?_, runCalls_results f (inp :: rest) none⟩
  have h1 : (runCalls f (inp :: rest) none).1 = (runCalls f rest (some 1)).1 := by
    simp [runCalls, countcallsCall]
  rw [h1, runCalls_counter f rest 1]
  congr 1
  omega

/-- Claim C7: `n_ary_wrap` returns its single argument unchanged, applies
the binary `f` to two arguments, recurses as `f x (g (y :: z :: rest))` on
three or more, and hence computes the right-fold of `f` over any argument
tuple of length at least one. -/
theorem n_ary_right_fold {α : Type} (f : α → α → α) :
    (∀ x : α, n_ary_wrap f [x] = some x) ∧
    (∀ x y : α, n_ary_wrap f [x, y] = some (f x y)) ∧
    (∀ (x y z : α) (rest : List α),
      n_ary_wrap f (x :: y :: z :: rest)
        = (n_ary_wrap f (y :: z :: rest)).map (fun v => f x v)) ∧
    (∀ (xs : List α) (x : α), n_ary_wrap f (xs ++ [x]) = some (xs.foldr f x)) :=
  ⟨fun _ => rfl, fun _ _ => rfl, fun _ _ _ _ => rfl, n_ary_wrap_foldr f⟩

/-- Claim C8 (counterexample): the traced, memoized, counted `fib` of
deco.py called with `6` does not return `8`. -/
theorem fib_traced_6_not_8 :
    (fibTraced 20 6 ⟨[], 0, 0⟩).map Prod.fst ≠ some 8 := by
  decide

/-- Claim C8 (amended): with the base case `1` for `n <= 1`, the decorated
`fib(6)` returns `13` (the seventh Fibonacci number), and the result is the
same whether or not the trace layer is present — both stacks also make the
same 7 underlying calls and end at trace depth 0. -/
theorem fib_6_returns_13_with_or_without_trace :
    ((fibTraced 20 6 ⟨[], 0, 0⟩).map Prod.fst = some 13) ∧
    ((fibUntraced 20 6 ⟨[], 0, 0⟩).map Prod.fst = some 13) ∧
    ((fibTraced 20 6 ⟨[], 0, 0⟩).map (fun p => p.2.calls)
      = (fibUntraced 20 6 ⟨[], 0, 0⟩).map (fun p => p.2.calls)) ∧
    ((fibTraced 20 6 ⟨[], 0, 0⟩).map (fun p => p.2.depth) = some 0) :=
  ⟨rfl, rfl, rfl, rfl⟩

/-- Claim C9 (counterexample): with a wrapped function returning the falsy
value `0`, a second call passing the same value under a different keyword
name does use the same cache key, but does NOT return without invoking the
wrapped function again: the inner call count reaches `2`, because the
cached `0` fails the truthiness test. -/
theorem memo_kwnames_counterexample :
    ¬ ((memoCall zeroFn [] [("b", 1)]
          (memoCall zeroFn [] [("a", 1)] ⟨[], 0⟩).2).2.fcount = 1) := by
  decide

/-- Claim C9 (amended): the cache key of `memo_wrap` is the tuple of
positional values followed by keyword-argument values in call order with
the names discarded, so two calls passing the same values under different
keyword names use the same key; and whenever the first call's result is
truthy (nonzero), the second such call returns that cached result with the
cache and the inner call count unchanged — for a falsy cached result the
truthiness-based lookup reinvokes the wrapped function instead. -/
theorem memo_key_discards_kwarg_names
    (f : List Int → List (String × Int) → Int)
    (args : List Int) (kw1 kw2 : List (String × Int)) (s : MemoState)
    (hvals : kw1.map Prod.snd = kw2.map Prod.snd)
    (hne : (memoCall f args kw1 s).1 ≠ 0) :
    memoKey args kw1 = memoKey args kw2 ∧
    memoCall f args kw2 (memoCall f args kw1 s).2
      = ((memoCall f args kw1 s).1, (memoCall f args kw1 s).2) := by
  have hkey : memoKey args kw1 = memoKey args kw2 := by
    simp [memoKey, hvals]
  refine ⟨hkey, ?_⟩
  by_cases hmiss : pyFalsyOptInt (alistGet s.cache (memoKey args kw1))
  · have h1 : memoCall f args kw1 s
        = (f args kw1,
           ⟨alistSet s.cache (memoKey args kw1) (f args kw1), s.fcount + 1⟩) := by
      simp [memoCall, hmiss]
    rw [h1] at hne ⊢
    have hget : alistGet (alistSet s.cache (memoKey args kw1) (f args kw1))
        (memoKey args kw2) = some (f args kw1) := by
      rw [← hkey]
      exact alistGet_set_same _ _ _
    simp [memoCall, hget, pyFalsyOptInt, hne]
  · have h1 : memoCall f args kw1 s
        = ((alistGet s.cache (memoKey args kw1)).getD 0, s) := by
      simp [memoCall, hmiss]
    rw [h1]
    have hmiss2 : ¬ pyFalsyOptInt (alistGet s.cache (memoKey args kw2)) := by
      rw [← hkey]
      exact hmiss
    simp [memoCall, hmiss2, hkey]

/-- Witness for claim C9's amended theorem at a concrete input: same value
`3` passed as keyword `a` and then as keyword `b`, with a wrapped function
returning the truthy `7`. -/
theorem memo_key_discards_kwarg_names_witness :
    ([("a", (3 : Int))].map Prod.snd = [("b", (3 : Int))].map Prod.snd) ∧
    ((memoCall sevenFn [2] [("a", 3)] ⟨[], 0⟩).1 ≠ 0) ∧
    (memoKey [2] [("a", 3)] = memoKey [2] [("b", 3)] ∧
      memoCall sevenFn [2] [("b", 3)] (memoCall sevenFn [2] [("a", 3)] ⟨[], 0⟩).2
        = ((memoCall sevenFn [2] [("a", 3)] ⟨[], 0⟩).1,
           (memoCall sevenFn [2] [("a", 3)] ⟨[], 0⟩).2)) :=
  ⟨by decide, by decide,
    memo_key_discards_kwarg_names sevenFn [2] [("a", 3)] [("b", 3)] ⟨[], 0⟩
      (by decide) (by decide)⟩

/-- Claim C10: the wrappers built by `decorator` and `disable` run the
wrapped function (its effects happen) but always return `None`, discarding
its return value; and `decorator` copies only the wrapped function's
documentation onto the wrapper, while the wrapper's name stays its own
(`decorator_wrap`). -/
theorem decorator_disable_return_none {σ : Type}
    (f : List Int → List (String × Int) → σ → Int × σ)
    (args : List Int) (kwargs : List (String × Int)) (s : σ)
    (g : PyFun) (r : Nat) :
    (decorator_wrapCall f args kwargs s).1 = none ∧
    (decorator_wrapCall f args kwargs s).2 = (f args kwargs s).2 ∧
    (disable_wrapCall f args kwargs s).1 = none ∧
    (disable_wrapCall f args kwargs s).2 = (f args kwargs s).2 ∧
    (decoratorMeta g r).doc = g.doc ∧
    (decoratorMeta g r).name = "decorator_wrap" :=
  ⟨rfl, rfl, rfl, rfl, rfl, rfl⟩
